import Mathlib

/-!
Verification development for the fish-eat-fish game: a shallow embedding of
the growth/predation state machine of the client (js/water-effect.js,
js/ai-player.js, js/leaderboard.js, the multiplayer manager) and of the
relay server (server.js), together with proofs about the embedded
operations.

Modelling conventions:
* JavaScript numbers are modelled as rationals (ℚ) where fractional values
  occur, and as natural numbers (ℕ) or integers (ℤ) where the source only
  ever holds integers.  The arithmetic appearing in the growth formulas
  (multiplication by 1.5, division by 1.5, Math.floor) is exact in IEEE
  doubles for every magnitude the game reaches, so Math.floor(f * 1.5) is
  3 * f / 2 and Math.floor(f / 1.5) is 2 * f / 3 in ℕ division.
* Randomness (food positions, ids, colours) is modelled by passing the
  drawn values in as parameters.
* The radius written by grow/shrink goes through a growth animation whose
  final frame commits radius = targetRadius exactly (water-effect.js line
  1126), so the settled radius is modelled directly.
-/

namespace FishEatFish

/-- Minimal view of another fish: the only field the edibility tests read. -/
structure FishRef where
  radius : ℚ
deriving DecidableEq

/-- Simulation state of the player fish (water-effect.js, class PlayerFish).
Only the fields read or written by the growth engine operations are
modelled; rendering, camera and input fields are omitted. -/
structure PlayerFish where
  sizeLevel : ℕ
  radius : ℚ
  baseSpeed : ℚ
  speed : ℚ
  boosting : Bool
  score : ℚ
  fishEaten : ℚ
  fishNeededToGrow : ℕ
  growthProgress : ℚ
deriving DecidableEq

/-- boostDrainRate from the PlayerFish constructor (water-effect.js line
231): growth progress consumed per frame while boosting. -/
def boostDrainRate : ℚ := 1/1000

/-- The PlayerFish constructor values (water-effect.js lines 222-255). -/
def initialPlayer : PlayerFish :=
  { sizeLevel := 1
    radius := 15
    baseSpeed := 2
    speed := 2
    boosting := false
    score := 0
    fishEaten := 0
    fishNeededToGrow := 5
    growthProgress := 0 }

/-- PlayerFish.grow (water-effect.js lines 937-981): bumps the size level,
resets the growth progress, rescales the growth threshold by 1.5 with
floor, applies the bounded speed decrease, and raises the radius by
amount * (5 + floor(newLevel / 2) * 2), computed from the level just
entered. -/
def grow (p : PlayerFish) (amount : ℕ) : PlayerFish :=
  let sizeLevel := p.sizeLevel + amount
  let fishNeededToGrow := 3 * p.fishNeededToGrow / 2
  let baseSpeed := max (3/2 : ℚ) (p.baseSpeed * (95/100))
  let growthAmount : ℚ := (amount : ℚ) * ((5 + sizeLevel / 2 * 2 : ℕ) : ℚ)
  { p with sizeLevel, fishEaten := 0, growthProgress := 0, fishNeededToGrow,
           baseSpeed, speed := baseSpeed,
           radius := p.radius + growthAmount }

/-- PlayerFish.shrink (water-effect.js lines 846-874): refuses below level
2, otherwise lowers the radius by 5 + floor((oldLevel - 1) / 2) * 2,
decrements the level, applies the bounded speed increase, and rescales the
growth threshold by 1/1.5 with floor.  Returns the updated fish and the
boolean result of the source method. -/
def shrink (p : PlayerFish) : PlayerFish × Bool :=
  if p.sizeLevel ≤ 1 then (p, false)
  else
    let shrinkAmount : ℚ := ((5 + (p.sizeLevel - 1) / 2 * 2 : ℕ) : ℚ)
    let baseSpeed := min (7/2 : ℚ) (p.baseSpeed / (95/100))
    ({ p with sizeLevel := p.sizeLevel - 1,
              radius := p.radius - shrinkAmount,
              baseSpeed, speed := baseSpeed,
              fishNeededToGrow := 2 * p.fishNeededToGrow / 3 }, true)

/-- PlayerFish.updateBoost (water-effect.js lines 804-839): while boosting,
drain the current level progress clamped at 0; if the progress is gone and
the level is above 1, shrink and seed the lower level at 90 percent; at
level 1 with no progress, stop boosting. -/
def updateBoost (p : PlayerFish) : PlayerFish :=
  if !p.boosting then p
  else
    let drainAmount := boostDrainRate
    if p.fishEaten > 0 then
      let fishEaten := max 0 (p.fishEaten - drainAmount * (p.fishNeededToGrow : ℚ))
      { p with fishEaten, growthProgress := fishEaten / (p.fishNeededToGrow : ℚ) }
    else if p.sizeLevel > 1 then
      let q := (shrink p).1
      { q with fishEaten := (q.fishNeededToGrow : ℚ) * (9/10),
               growthProgress := 9/10 }
    else
      { p with boosting := false }

/-- PlayerFish.eatFish (water-effect.js lines 911-930): accumulates the
eaten amount, scores amount * 10 * sizeLevel, recomputes the progress
fraction, and levels up once the raw accumulation reaches the threshold. -/
def eatFish (p : PlayerFish) (amount : ℚ) : PlayerFish :=
  let fishEaten := p.fishEaten + amount
  let score := p.score + amount * 10 * (p.sizeLevel : ℚ)
  let p₁ := { p with fishEaten, score,
                     growthProgress := fishEaten / (p.fishNeededToGrow : ℚ) }
  if p₁.fishEaten ≥ (p₁.fishNeededToGrow : ℚ) then grow p₁ 1 else p₁

/-- PlayerFish.canEat (water-effect.js lines 1092-1095). -/
def PlayerFish.canEat (p : PlayerFish) (otherFish : FishRef) : Bool :=
  decide (p.radius > otherFish.radius * (0.99 : ℚ))

/-- The AI fish, reduced to the one field its edibility test reads
(js/ai-player.js; the remaining fields drive rendering and the behaviour
state machine, which no claim here touches). -/
structure AIPlayer where
  radius : ℚ
deriving DecidableEq

/-- AIPlayer.canEat (js/ai-player.js lines 366-368). -/
def AIPlayer.canEat (a : AIPlayer) (otherPlayer : FishRef) : Bool :=
  decide (a.radius > otherPlayer.radius * (1.05 : ℚ))

/-- Radius of the local player after levelling from the constructor state
up to the given size level through repeated grow calls. -/
def playerRadiusAtLevel (sizeLevel : ℕ) : ℚ :=
  ((fun p => grow p 1)^[sizeLevel - 1] initialPlayer).radius

/-- calculateRadiusFromSizeLevel of the ad-hoc remote player object built
from server payloads (multiplayer manager, src/unnamed/part_000 lines
303-313): base radius 15, then one increment of 5 + floor(i / 2) * 2 for
each loop index i = 1 .. sizeLevel - 1. -/
def calculateRadiusFromSizeLevel (sizeLevel : ℕ) : ℚ :=
  ((List.range sizeLevel).drop 1).foldl
    (fun radius i => radius + ((5 + i / 2 * 2 : ℕ) : ℚ)) 15

/-- The radius computation of determineSizeRelativeToPlayer for enemy fish
(js/leaderboard.js lines 376-383): base radius 10, then the same loop as
the remote player reconstruction.  The random size roll that picks the
enemy size level is irrelevant to the radius formula and is not modelled. -/
def enemyRadiusFromSizeLevel (sizeLevel : ℕ) : ℚ :=
  ((List.range sizeLevel).drop 1).foldl
    (fun radius i => radius + ((5 + i / 2 * 2 : ℕ) : ℚ)) 10

/-- Modelled from the spec wording of the canonical growth curve
radiusForLevel: base radius 15 for level 1 and, for each level i from 2 to
sizeLevel, an increment of 5 + floor(i / 2) * 2.  Stated for comparison
with the three source-side radius computations. -/
def radiusForLevel (sizeLevel : ℕ) : ℚ :=
  15 + ∑ i in Finset.Icc 2 sizeLevel, ((5 + i / 2 * 2 : ℕ) : ℚ)

/-- A server food item (server.js lines 35-42); the random draws behind
its id, position and colour are supplied by the caller. -/
structure Food where
  id : String
  x : ℚ
  y : ℚ
  radius : ℚ
  value : ℚ
  color : String
deriving DecidableEq

/-- The per-player snapshot stored in gameState.players (server.js lines
106-119). -/
structure PlayerSnapshot where
  id : String
  name : String
  x : ℚ
  y : ℚ
  radius : ℚ
  color : String
  eyeColor : String
  pupilColor : String
  angle : ℚ
  score : ℚ
  sizeLevel : ℤ
  isAlive : Bool
deriving DecidableEq

/-- The gameState object (server.js lines 20-28); the players object is
modelled as an association list in insertion order. -/
structure GameState where
  players : List (String × PlayerSnapshot)
  foods : List Food
  worldWidth : ℚ
  worldHeight : ℚ
  maxFoodItems : ℕ
  connectedPlayers : ℤ
deriving DecidableEq

/-- The literal initialiser of gameState (server.js lines 20-28). -/
def initialGameState : GameState :=
  { players := [], foods := [], worldWidth := 3840, worldHeight := 2160,
    maxFoodItems := 100, connectedPlayers := 0 }

/-- The notifications the server can emit over the socket layer. -/
inductive ServerEvent
  | gameStateSent
  | playerJoined (p : PlayerSnapshot)
  | playerMoved (p : PlayerSnapshot)
  | foodSpawned (f : Food)
  | foodRemoved (foodId : String)
  | playerDied (playerId : String)
  | playerRespawned (p : PlayerSnapshot)
  | playerLeft (socketId : String)
deriving DecidableEq

/-- Property read on the players object: gameState.players[sid]. -/
def lookupPlayer (players : List (String × PlayerSnapshot)) (sid : String) :
    Option PlayerSnapshot :=
  (players.find? (fun e => e.1 == sid)).map (·.2)

/-- Property write on the players object: gameState.players[sid] = snap,
overwriting in place when the key exists and appending otherwise. -/
def setPlayer (players : List (String × PlayerSnapshot)) (sid : String)
    (snap : PlayerSnapshot) : List (String × PlayerSnapshot) :=
  if players.any (fun e => e.1 == sid) then
    players.map (fun e => if e.1 == sid then (sid, snap) else e)
  else players ++ [(sid, snap)]

/-- Property delete on the players object: delete gameState.players[sid]. -/
def removePlayer (players : List (String × PlayerSnapshot)) (sid : String) :
    List (String × PlayerSnapshot) :=
  players.filter (fun e => !(e.1 == sid))

/-- generateFood (server.js lines 31-46): refuses when the cap is reached,
otherwise appends a fresh food with radius 5 and value 1 built from the
supplied random draws, returning it as the source function does (the
source returns undefined on the cap branch, modelled as none). -/
def generateFood (gs : GameState) (fid : String) (fx fy : ℚ) (fcolor : String) :
    GameState × Option Food :=
  if gs.foods.length ≥ gs.maxFoodItems then (gs, none)
  else
    let food : Food := { id := fid, x := fx, y := fy, radius := 5, value := 1, color := fcolor }
    ({ gs with foods := gs.foods ++ [food] }, some food)

/-- The boot-time seeding loop (server.js lines 54-56), generalised to any
list of random draws; the source runs it on 50 draws. -/
def seedFoods (gs : GameState) (draws : List (String × ℚ × ℚ × String)) : GameState :=
  draws.foldl (fun s d => (generateFood s d.1 d.2.1 d.2.2.1 d.2.2.2).1) gs

/-- The server process state: the game state plus the food spawn timer
handle (some period while a timer is armed, none after clearInterval). -/
structure ServerState where
  gs : GameState
  foodSpawnInterval : Option ℕ
deriving DecidableEq

/-- startFoodSpawning (server.js lines 61-82): always cancels any existing
timer, then arms a new one with a period chosen by the player count: no
timer at 0 players, 2000 ms at exactly 1, 500 ms otherwise. -/
def startFoodSpawning (st : ServerState) : ServerState :=
  let cleared : ServerState := { st with foodSpawnInterval := none }
  if cleared.gs.connectedPlayers = 0 then cleared
  else if cleared.gs.connectedPlayers = 1 then { cleared with foodSpawnInterval := some 2000 }
  else { cleared with foodSpawnInterval := some 500 }

/-- One firing of the food spawn timer callback (server.js lines 76-81):
generate a food and, when one was created and players are connected,
notify every client. -/
def spawnTick (st : ServerState) (fid : String) (fx fy : ℚ) (fcolor : String) :
    ServerState × List ServerEvent :=
  let res := generateFood st.gs fid fx fy fcolor
  let st₁ : ServerState := { st with gs := res.1 }
  match res.2 with
  | some newFood =>
      if st₁.gs.connectedPlayers > 0 then (st₁, [ServerEvent.foodSpawned newFood])
      else (st₁, [])
  | none => (st₁, [])

/-- The connection handler body that runs when a socket connects
(server.js lines 88-99): increment the player count, rebuild the spawn
timer, and send the full game state to the new socket. -/
def onConnection (st : ServerState) : ServerState × List ServerEvent :=
  let st₁ : ServerState :=
    { st with gs := { st.gs with connectedPlayers := st.gs.connectedPlayers + 1 } }
  (startFoodSpawning st₁, [ServerEvent.gameStateSent])

/-- Payload of a playerJoin message (server.js lines 102-125); the
JavaScript truthiness test on the world dimensions is modelled by option
presence. -/
structure JoinData where
  name : String
  x : ℚ
  y : ℚ
  radius : ℚ
  color : String
  eyeColor : String
  pupilColor : String
  angle : ℚ
  worldWidth : Option ℚ
  worldHeight : Option ℚ
deriving DecidableEq

/-- The playerJoin handler (server.js lines 102-131): store a fresh
snapshot under the socket id, merge the world dimensions via max, and
broadcast playerJoined only when other players are connected. -/
def playerJoin (gs : GameState) (sid : String) (pd : JoinData) :
    GameState × List ServerEvent :=
  let snap : PlayerSnapshot :=
    { id := sid, name := pd.name, x := pd.x, y := pd.y, radius := pd.radius,
      color := pd.color, eyeColor := pd.eyeColor, pupilColor := pd.pupilColor,
      angle := pd.angle, score := 0, sizeLevel := 1, isAlive := true }
  let gs₁ : GameState := { gs with players := setPlayer gs.players sid snap }
  let gs₂ : GameState :=
    match pd.worldWidth, pd.worldHeight with
    | some w, some h =>
        { gs₁ with worldWidth := max gs₁.worldWidth w,
                   worldHeight := max gs₁.worldHeight h }
    | _, _ => gs₁
  if gs₂.connectedPlayers > 1 then (gs₂, [ServerEvent.playerJoined snap]) else (gs₂, [])

/-- Payload of a playerUpdate message (server.js lines 134-151). -/
structure UpdateData where
  x : ℚ
  y : ℚ
  radius : ℚ
  angle : ℚ
  score : ℚ
  sizeLevel : ℤ
  isAlive : Bool
deriving DecidableEq

/-- The playerUpdate handler (server.js lines 134-151): overwrite the
mutable fields of a registered snapshot and broadcast playerMoved only
when other players are connected. -/
def playerUpdate (gs : GameState) (sid : String) (pd : UpdateData) :
    GameState × List ServerEvent :=
  match lookupPlayer gs.players sid with
  | none => (gs, [])
  | some player =>
      let player₁ := { player with
        x := pd.x, y := pd.y, radius := pd.radius, angle := pd.angle,
        score := pd.score, sizeLevel := pd.sizeLevel, isAlive := pd.isAlive }
      let gs₁ : GameState := { gs with players := setPlayer gs.players sid player₁ }
      if gs₁.connectedPlayers > 1 then (gs₁, [ServerEvent.playerMoved player₁])
      else (gs₁, [])

/-- The foodEaten handler (server.js lines 154-163): find the first food
with the reported id; when present, splice it out and notify every
client; otherwise do nothing. -/
def foodEaten (gs : GameState) (foodId : String) : GameState × List ServerEvent :=
  match gs.foods.findIdx? (fun food => food.id == foodId) with
  | some foodIndex =>
      ({ gs with foods := gs.foods.eraseIdx foodIndex },
       [ServerEvent.foodRemoved foodId])
  | none => (gs, [])

/-- The playerEaten handler (server.js lines 166-174): flip the reported
snapshot to dead and notify every client; unknown ids are ignored. -/
def playerEaten (gs : GameState) (eatenPlayerId : String) :
    GameState × List ServerEvent :=
  match lookupPlayer gs.players eatenPlayerId with
  | some eatenPlayer =>
      ({ gs with players := setPlayer gs.players eatenPlayerId
                   { eatenPlayer with isAlive := false } },
       [ServerEvent.playerDied eatenPlayerId])
  | none => (gs, [])

/-- Payload of a playerRespawn message (server.js lines 177-193). -/
structure RespawnData where
  x : ℚ
  y : ℚ
  radius : ℚ
  score : ℚ
  sizeLevel : ℤ
deriving DecidableEq

/-- The playerRespawn handler (server.js lines 177-193): overwrite the
snapshot, revive it, and broadcast playerRespawned only when other players
are connected. -/
def playerRespawn (gs : GameState) (sid : String) (pd : RespawnData) :
    GameState × List ServerEvent :=
  match lookupPlayer gs.players sid with
  | none => (gs, [])
  | some player =>
      let player₁ := { player with
        x := pd.x, y := pd.y, radius := pd.radius, score := pd.score,
        sizeLevel := pd.sizeLevel, isAlive := true }
      let gs₁ : GameState := { gs with players := setPlayer gs.players sid player₁ }
      if gs₁.connectedPlayers > 1 then (gs₁, [ServerEvent.playerRespawned player₁])
      else (gs₁, [])

/-- The disconnect handler (server.js lines 196-217): clamp-decrement the
player count, rebuild the spawn timer, then remove the snapshot and
broadcast playerLeft when players remain. -/
def onDisconnect (st : ServerState) (sid : String) : ServerState × List ServerEvent :=
  let gs₁ : GameState :=
    { st.gs with connectedPlayers := max 0 (st.gs.connectedPlayers - 1) }
  let st₁ := startFoodSpawning { st with gs := gs₁ }
  match lookupPlayer st₁.gs.players sid with
  | some _ =>
      let st₂ : ServerState :=
        { st₁ with gs := { st₁.gs with players := removePlayer st₁.gs.players sid } }
      if st₂.gs.connectedPlayers > 0 then (st₂, [ServerEvent.playerLeft sid])
      else (st₂, [])
  | none => (st₁, [])

/-- An inbound occurrence the single-threaded server processes atomically:
a transport-level connect or disconnect, one of the per-socket game
messages, or a firing of the spawn timer. -/
inductive ServerMsg
  | connect (sid : String)
  | join (sid : String) (pd : JoinData)
  | move (sid : String) (pd : UpdateData)
  | eatFood (fid : String)
  | eatPlayer (pid : String)
  | respawn (sid : String) (pd : RespawnData)
  | close (sid : String)
  | spawn (fid : String) (fx fy : ℚ) (fcolor : String)
deriving DecidableEq

/-- Whole-process state: the server state plus the set of currently
connected sockets, maintained by the transport. -/
structure TraceState where
  st : ServerState
  sockets : List String
deriving DecidableEq

/-- Transport guarantees: a connect carries a fresh socket id, and every
per-socket message comes from a currently connected socket.  Reported food
and eaten-player ids may reference anything. -/
def validMsg (ts : TraceState) : ServerMsg → Bool
  | .connect sid => !(ts.sockets.contains sid)
  | .join sid _ => ts.sockets.contains sid
  | .move sid _ => ts.sockets.contains sid
  | .eatFood _ => true
  | .eatPlayer _ => true
  | .respawn sid _ => ts.sockets.contains sid
  | .close sid => ts.sockets.contains sid
  | .spawn _ _ _ _ => true

/-- One atomic step of the server process, dispatching to the handler for
the message and updating the transport socket set. -/
def traceStep (ts : TraceState) : ServerMsg → TraceState
  | .connect sid => { st := (onConnection ts.st).1, sockets := sid :: ts.sockets }
  | .join sid pd => { ts with st := { ts.st with gs := (playerJoin ts.st.gs sid pd).1 } }
  | .move sid pd => { ts with st := { ts.st with gs := (playerUpdate ts.st.gs sid pd).1 } }
  | .eatFood fid => { ts with st := { ts.st with gs := (foodEaten ts.st.gs fid).1 } }
  | .eatPlayer pid => { ts with st := { ts.st with gs := (playerEaten ts.st.gs pid).1 } }
  | .respawn sid pd => { ts with st := { ts.st with gs := (playerRespawn ts.st.gs sid pd).1 } }
  | .close sid => { st := (onDisconnect ts.st sid).1, sockets := ts.sockets.erase sid }
  | .spawn fid fx fy fc => { ts with st := (spawnTick ts.st fid fx fy fc).1 }

/-- A message list is a valid trace when every message satisfies the
transport guarantee in the state where it is processed. -/
def validTrace : TraceState → List ServerMsg → Bool
  | _, [] => true
  | ts, m :: ms => validMsg ts m && validTrace (traceStep ts m) ms

/-- Run the server over a list of messages. -/
def runTrace : TraceState → List ServerMsg → TraceState
  | ts, [] => ts
  | ts, m :: ms => runTrace (traceStep ts m) ms

/-- Server boot (server.js lines 20-85): the literal initial game state,
the food seeding loop, and the initial startFoodSpawning call, before any
socket has connected. -/
def bootState (draws : List (String × ℚ × ℚ × String)) : TraceState :=
  { st := startFoodSpawning
            { gs := seedFoods initialGameState draws, foodSpawnInterval := none }
    sockets := [] }

/-- The socket ids registered in the players object. -/
def playerIds (gs : GameState) : List String :=
  gs.players.map (·.1)

/-- Modelled from the spec wording of the adaptive spawn policy: the spawn
period as a function of the connected-player count — paused at 0, 2000 ms
at exactly 1, 500 ms at 2 or more.  Stated for comparison with
startFoodSpawning. -/
def specSpawnPeriod (n : ℤ) : Option ℕ :=
  if n = 0 then none else if n = 1 then some 2000 else some 500

/-! Concrete states and payloads used to instantiate the theorems. -/

/-- A game state holding exactly one food item, id "a". -/
def demoFoodState : GameState :=
  { initialGameState with
      foods := [{ id := "a", x := 1, y := 2, radius := 5, value := 1, color := "#AAFFAA" }] }

/-- A server state with a lone connected player and an empty food list. -/
def loneServerState : ServerState :=
  { gs := { initialGameState with connectedPlayers := 1 }
    foodSpawnInterval := some 2000 }

/-- A concrete playerJoin payload. -/
def demoJoinData : JoinData :=
  { name := "p", x := 0, y := 0, radius := 15, color := "#3399FF",
    eyeColor := "white", pupilColor := "black", angle := 0,
    worldWidth := none, worldHeight := none }

/-- Concrete random draws for a boot with 50 seeded foods. -/
def demoDraws : List (String × ℚ × ℚ × String) :=
  List.replicate 50 ("f", 1, 2, "#AAFFAA")

/-- A concrete playerUpdate payload. -/
def demoUpdateData : UpdateData :=
  { x := 3, y := 4, radius := 22, angle := 0, score := 10, sizeLevel := 2,
    isAlive := true }

/-- A concrete playerRespawn payload. -/
def demoRespawnData : RespawnData :=
  { x := 5, y := 6, radius := 15, score := 5, sizeLevel := 1 }

/-- The counter/registry invariant: the connectedPlayers counter equals
the number of connected sockets, the socket set and the registry keys are
duplicate-free, and every registered player belongs to a connected
socket. -/
def CounterInv (ts : TraceState) : Prop :=
  ts.st.gs.connectedPlayers = (ts.sockets.length : ℤ) ∧
  ts.sockets.Nodup ∧
  (∀ sid ∈ playerIds ts.st.gs, sid ∈ ts.sockets) ∧
  (playerIds ts.st.gs).Nodup

/-- The food-cap invariant: the food count never exceeds the cap, which
stays at its boot value of 100. -/
def FoodInv (ts : TraceState) : Prop :=
  ts.st.gs.foods.length ≤ ts.st.gs.maxFoodItems ∧ ts.st.gs.maxFoodItems = 100

/-! ## Theorems -/

/-- C1: the claim that every radius-from-size-level computation agrees
fails already at sizeLevel 2: the local player grow path yields radius 22
(matching the spec curve), but the remote player reconstruction yields 20
(its loop runs over i = 1 .. L-1 instead of 2 .. L) and the enemy
construction yields 15 (base radius 10 instead of 15, with the same
shifted loop) — even though the enemy source comments claim it uses the
same formula as the player fish. -/
theorem C1_radius_formulas_disagree :
    playerRadiusAtLevel 2 = 22 ∧ radiusForLevel 2 = 22 ∧
    calculateRadiusFromSizeLevel 2 = 20 ∧ enemyRadiusFromSizeLevel 2 = 15 ∧
    calculateRadiusFromSizeLevel 2 ≠ playerRadiusAtLevel 2 ∧
    enemyRadiusFromSizeLevel 2 ≠ playerRadiusAtLevel 2 := by
  have h1 : playerRadiusAtLevel 2 = 22 := by
    simp only [playerRadiusAtLevel]
    norm_num [Function.iterate_one, grow, initialPlayer]
  have h3 : calculateRadiusFromSizeLevel 2 = 20 := by
    norm_num [calculateRadiusFromSizeLevel, List.range_succ]
  have h4 : enemyRadiusFromSizeLevel 2 = 15 := by
    norm_num [enemyRadiusFromSizeLevel, List.range_succ]
  refine ⟨h1, ?_, h3, h4, ?_, ?_⟩
  · norm_num [radiusForLevel, Finset.Icc_self, Finset.sum_singleton]
  · rw [h1, h3]; norm_num
  · rw [h1, h4]; norm_num

/-- C2 as stated fails at the constructor state (level 1, radius 15,
fishNeededToGrow 5): grow followed by shrink returns to level 1 but with
radius 17 and fishNeededToGrow 4. -/
theorem C2_round_trip_counterexample :
    ¬ ((shrink (grow initialPlayer 1)).1.sizeLevel = initialPlayer.sizeLevel ∧
       (shrink (grow initialPlayer 1)).1.radius = initialPlayer.radius ∧
       (shrink (grow initialPlayer 1)).1.fishNeededToGrow =
         initialPlayer.fishNeededToGrow) := by
  intro h
  have h2 := h.2.1
  norm_num [shrink, grow, initialPlayer] at h2

/-- C2 amended: grow then shrink always returns to the original size
level, but the radius comes back exact only from even levels — from an odd
level L it ends 2 larger, because grow adds 5 + floor((L+1)/2)*2 while
shrink removes 5 + floor(L/2)*2 — and fishNeededToGrow comes back as
f - f % 2, exact only for even f. -/
theorem C2_round_trip_amended (p : PlayerFish) (h : 1 ≤ p.sizeLevel) :
    (shrink (grow p 1)).1.sizeLevel = p.sizeLevel ∧
    (shrink (grow p 1)).1.radius = p.radius + 2 * ((p.sizeLevel % 2 : ℕ) : ℚ) ∧
    (shrink (grow p 1)).1.fishNeededToGrow =
      p.fishNeededToGrow - p.fishNeededToGrow % 2 := by
  have hgt : ¬ (p.sizeLevel + 1 ≤ 1) := by omega
  simp only [grow, shrink, hgt, if_false]
  refine ⟨by omega, ?_, by omega⟩
  have hδ : (5 + (p.sizeLevel + 1) / 2 * 2 : ℕ) =
      5 + (p.sizeLevel + 1 - 1) / 2 * 2 + 2 * (p.sizeLevel % 2) := by omega
  rw [hδ]
  push_cast
  ring

/-- Closed instance of the amended C2 round trip at the constructor
state. -/
theorem C2_round_trip_amended_witness :
    1 ≤ initialPlayer.sizeLevel ∧
    ((shrink (grow initialPlayer 1)).1.sizeLevel = initialPlayer.sizeLevel ∧
     (shrink (grow initialPlayer 1)).1.radius =
       initialPlayer.radius + 2 * ((initialPlayer.sizeLevel % 2 : ℕ) : ℚ) ∧
     (shrink (grow initialPlayer 1)).1.fishNeededToGrow =
       initialPlayer.fishNeededToGrow - initialPlayer.fishNeededToGrow % 2) :=
  ⟨by decide, C2_round_trip_amended initialPlayer (by decide)⟩

/-- C7 as stated fails: eatFish with amount -1 at the constructor state
changes fishEaten from 0 to -1 and the score from 0 to -10. -/
theorem C7_eat_negative_counterexample :
    ¬ ((eatFish initialPlayer (-1)).fishEaten = initialPlayer.fishEaten ∧
       (eatFish initialPlayer (-1)).score = initialPlayer.score) := by
  intro h
  have h1 := h.1
  norm_num [eatFish, initialPlayer] at h1

/-- C7 amended: eatFish performs no validation of its argument; a negative
amount that leaves the accumulation below the growth threshold passes
straight through, strictly decreasing the accumulated progress and, at any
positive size level, the score. -/
theorem C7_eat_negative_amended (p : PlayerFish) (amount : ℚ)
    (hneg : amount < 0)
    (hbelow : p.fishEaten + amount < (p.fishNeededToGrow : ℚ)) :
    (eatFish p amount).fishEaten = p.fishEaten + amount ∧
    (eatFish p amount).score = p.score + amount * 10 * (p.sizeLevel : ℚ) ∧
    (eatFish p amount).fishEaten < p.fishEaten ∧
    (1 ≤ p.sizeLevel → (eatFish p amount).score < p.score) := by
  have hlt : ¬ (p.fishEaten + amount ≥ (p.fishNeededToGrow : ℚ)) := not_le.mpr hbelow
  refine ⟨?_, ?_, ?_, fun hL => ?_⟩
  · simp [eatFish, hlt]
  · simp [eatFish, hlt]
  · simp only [eatFish]
    rw [if_neg hlt]
    simp only
    linarith
  · simp only [eatFish]
    rw [if_neg hlt]
    simp only
    have h1 : (1 : ℚ) ≤ (p.sizeLevel : ℚ) := by exact_mod_cast hL
    nlinarith

/-- Closed instance of the amended C7 statement at the constructor state
with amount -1. -/
theorem C7_eat_negative_amended_witness :
    ((-1 : ℚ) < 0 ∧
     initialPlayer.fishEaten + (-1) < (initialPlayer.fishNeededToGrow : ℚ)) ∧
    ((eatFish initialPlayer (-1)).fishEaten = initialPlayer.fishEaten + (-1) ∧
     (eatFish initialPlayer (-1)).score =
       initialPlayer.score + (-1) * 10 * (initialPlayer.sizeLevel : ℚ) ∧
     (eatFish initialPlayer (-1)).fishEaten < initialPlayer.fishEaten ∧
     (1 ≤ initialPlayer.sizeLevel →
       (eatFish initialPlayer (-1)).score < initialPlayer.score)) :=
  ⟨⟨by norm_num, by norm_num [initialPlayer]⟩,
   C7_eat_negative_amended initialPlayer (-1) (by norm_num)
     (by norm_num [initialPlayer])⟩

/-- One boost step at the terminal floor (level 1, no progress) keeps
level 1 and zero progress and leaves boosting deactivated. -/
theorem updateBoost_floor (q : PlayerFish) (h1 : q.sizeLevel = 1)
    (h2 : q.fishEaten = 0) (h3 : q.growthProgress = 0) :
    (updateBoost q).sizeLevel = 1 ∧ (updateBoost q).fishEaten = 0 ∧
    (updateBoost q).growthProgress = 0 ∧ (updateBoost q).boosting = false := by
  cases hb : q.boosting
  · simp [updateBoost, hb, h1, h2, h3]
  · simp [updateBoost, hb, h1, h2, h3]

/-- C6: from the terminal floor (level 1, zero progress) any number of
boost steps keeps size level 1 and zero progress, a single step already
deactivates boosting, and in general one drain step never drives the
accumulated progress or the progress fraction negative. -/
theorem C6_boost_floor (p : PlayerFish) (h1 : p.sizeLevel = 1)
    (h2 : p.fishEaten = 0) (h3 : p.growthProgress = 0) :
    (∀ n : ℕ, (updateBoost^[n] p).sizeLevel = 1 ∧
      (updateBoost^[n] p).fishEaten = 0 ∧
      (updateBoost^[n] p).growthProgress = 0) ∧
    (∀ n : ℕ, 1 ≤ n → (updateBoost^[n] p).boosting = false) ∧
    (∀ q : PlayerFish, 0 ≤ q.fishEaten → 0 ≤ q.growthProgress →
      0 ≤ (updateBoost q).fishEaten ∧ 0 ≤ (updateBoost q).growthProgress) := by
  have main : ∀ n : ℕ, (updateBoost^[n] p).sizeLevel = 1 ∧
      (updateBoost^[n] p).fishEaten = 0 ∧ (updateBoost^[n] p).growthProgress = 0 := by
    intro n
    induction n with
    | zero => simpa using ⟨h1, h2, h3⟩
    | succ m ih =>
        rw [Function.iterate_succ_apply']
        obtain ⟨a, b, c⟩ := ih
        have h := updateBoost_floor _ a b c
        exact ⟨h.1, h.2.1, h.2.2.1⟩
  refine ⟨main, fun n hn => ?_, fun q hq hg => ?_⟩
  · obtain ⟨m, rfl⟩ : ∃ m, n = m + 1 := ⟨n - 1, by omega⟩
    rw [Function.iterate_succ_apply']
    obtain ⟨a, b, c⟩ := main m
    exact (updateBoost_floor _ a b c).2.2.2
  · cases hb : q.boosting
    · simpa [updateBoost, hb] using ⟨hq, hg⟩
    · by_cases hf : (0 : ℚ) < q.fishEaten
      · constructor
        · simp [updateBoost, hb, hf]
        · simp only [updateBoost, hb, hf, Bool.not_true, Bool.false_eq_true,
            if_false, if_true]
          exact div_nonneg (le_max_left 0 _) (Nat.cast_nonneg _)
      · by_cases hs : 1 < q.sizeLevel
        · constructor
          · simp [updateBoost, hb, hf, hs]
          · simp [updateBoost, hb, hf, hs]
            norm_num
        · simpa [updateBoost, hb, hf, hs] using ⟨hq, hg⟩

/-- Closed instance of the C6 boost floor at the constructor state with
boosting switched on. -/
theorem C6_boost_floor_witness :
    ((updateBoost^[3] { initialPlayer with boosting := true }).sizeLevel = 1 ∧
     (updateBoost^[3] { initialPlayer with boosting := true }).fishEaten = 0 ∧
     (updateBoost^[3] { initialPlayer with boosting := true }).growthProgress = 0) ∧
    (updateBoost^[1] { initialPlayer with boosting := true }).boosting = false := by
  have h := C6_boost_floor { initialPlayer with boosting := true } rfl rfl rfl
  exact ⟨h.1 3, h.2.1 1 (by norm_num)⟩

/-- C8: the AI edibility test accepts exactly when the own radius exceeds
1.05 times the other radius, the local player test exactly when it exceeds
0.99 times it; at radii 30 versus 29 the AI test denies while the player
test allows. -/
theorem C8_edibility_thresholds :
    (∀ (a : AIPlayer) (o : FishRef),
        a.canEat o = true ↔ a.radius > o.radius * (1.05 : ℚ)) ∧
    (∀ (p : PlayerFish) (o : FishRef),
        p.canEat o = true ↔ p.radius > o.radius * (0.99 : ℚ)) ∧
    AIPlayer.canEat ⟨30⟩ ⟨29⟩ = false ∧
    PlayerFish.canEat { initialPlayer with radius := 30 } ⟨29⟩ = true := by
  refine ⟨fun a o => ?_, fun p o => ?_, ?_, ?_⟩
  · simp [AIPlayer.canEat]
  · simp [PlayerFish.canEat]
  · simp only [AIPlayer.canEat, decide_eq_false_iff_not]
    norm_num
  · simp only [PlayerFish.canEat, decide_eq_true_eq]
    norm_num

/-- Splitting a list whose match count is one: the first-index search
finds an index, and erasing that index removes one element and the last
match. -/
theorem countP_one_findIdx? {α : Type} (pB : α → Bool) :
    ∀ l : List α, l.countP pB = 1 →
      ∀ s : ℕ, ∃ i : ℕ, List.findIdx? pB l s = some (s + i) ∧
        (l.eraseIdx i).length + 1 = l.length ∧ (l.eraseIdx i).countP pB = 0 := by
  intro l
  induction l with
  | nil => intro hone; simp at hone
  | cons x xs ih =>
      intro hone s
      rw [List.countP_cons] at hone
      cases hx : pB x
      · rw [hx, if_neg (by simp)] at hone
        obtain ⟨i, hfind, hlen, hcount⟩ := ih (by omega) (s + 1)
        refine ⟨i + 1, ?_, ?_, ?_⟩
        · rw [List.findIdx?_cons, if_neg (by simp [hx]), hfind]
          congr 1
          omega
        · rw [List.eraseIdx_cons_succ]
          simpa using hlen
        · rw [List.eraseIdx_cons_succ, List.countP_cons]
          simp [hx, hcount]
      · have hxs : xs.countP pB = 0 := by
          rw [hx, if_pos rfl] at hone
          omega
        refine ⟨0, ?_, by simp, ?_⟩
        · rw [List.findIdx?_cons, if_pos (by simp [hx])]
          simp
        · simpa using hxs

/-- C3: when the reported id is present exactly once (as the server-side
id uniqueness provides), the first foodEaten report removes the food and
broadcasts foodRemoved, the second report with the same id is a silent
no-op, and the food count drops by exactly one across the two calls. -/
theorem C3_food_consumption_idempotent (gs : GameState) (fid : String)
    (hone : gs.foods.countP (fun food => food.id == fid) = 1) :
    (foodEaten gs fid).2 = [ServerEvent.foodRemoved fid] ∧
    (foodEaten gs fid).1.foods.length + 1 = gs.foods.length ∧
    foodEaten (foodEaten gs fid).1 fid = ((foodEaten gs fid).1, []) := by
  obtain ⟨i, hfind, hlen, hzero⟩ := countP_one_findIdx? _ gs.foods hone 0
  rw [Nat.zero_add] at hfind
  have hnone : (gs.foods.eraseIdx i).findIdx? (fun food => food.id == fid) = none := by
    rw [List.findIdx?_eq_none_iff]
    intro x hx
    have hcount := List.countP_eq_zero.mp hzero x hx
    simpa using hcount
  refine ⟨?_, ?_, ?_⟩ <;> simp [foodEaten, hfind, hnone, hlen]

/-- Closed instance of C3 at a game state holding exactly the one food
with id "a". -/
theorem C3_food_consumption_idempotent_witness :
    demoFoodState.foods.countP (fun food => food.id == "a") = 1 ∧
    ((foodEaten demoFoodState "a").2 = [ServerEvent.foodRemoved "a"] ∧
     (foodEaten demoFoodState "a").1.foods.length + 1 = demoFoodState.foods.length ∧
     foodEaten (foodEaten demoFoodState "a").1 "a" =
       ((foodEaten demoFoodState "a").1, [])) :=
  ⟨by decide, C3_food_consumption_idempotent demoFoodState "a" (by decide)⟩

/-- startFoodSpawning never touches the game state. -/
theorem startFoodSpawning_gs (st : ServerState) : (startFoodSpawning st).gs = st.gs := by
  simp only [startFoodSpawning]
  split_ifs <;> rfl

/-- The timer armed by startFoodSpawning carries exactly the adaptive
policy period for the current player count. -/
theorem startFoodSpawning_interval (st : ServerState) :
    (startFoodSpawning st).foodSpawnInterval = specSpawnPeriod st.gs.connectedPlayers := by
  simp only [startFoodSpawning, specSpawnPeriod]
  split_ifs <;> rfl

/-- C4: every connection and every disconnection rebuilds the single spawn
timer, whose period follows the adaptive policy: no timer at 0 connected
players, 2000 ms at exactly 1, 500 ms at 2 or more. -/
theorem C4_adaptive_spawn_timer (st : ServerState) (sid : String) :
    (onConnection st).1.gs.connectedPlayers = st.gs.connectedPlayers + 1 ∧
    (onConnection st).1.foodSpawnInterval =
      specSpawnPeriod (st.gs.connectedPlayers + 1) ∧
    (onDisconnect st sid).1.gs.connectedPlayers = max 0 (st.gs.connectedPlayers - 1) ∧
    (onDisconnect st sid).1.foodSpawnInterval =
      specSpawnPeriod (max 0 (st.gs.connectedPlayers - 1)) ∧
    specSpawnPeriod 0 = none ∧ specSpawnPeriod 1 = some 2000 ∧
    (∀ n : ℤ, 2 ≤ n → specSpawnPeriod n = some 500) := by
  refine ⟨?_, ?_, ?_, ?_, rfl, rfl, fun n hn => ?_⟩
  · simp [onConnection, startFoodSpawning_gs]
  · simp [onConnection, startFoodSpawning_interval]
  · rcases hl : lookupPlayer st.gs.players sid with _ | pl <;>
      simp [onDisconnect, startFoodSpawning_gs, startFoodSpawning_interval, hl]
    split_ifs <;> rfl
  · rcases hl : lookupPlayer st.gs.players sid with _ | pl <;>
      simp [onDisconnect, startFoodSpawning_gs, startFoodSpawning_interval, hl]
    split_ifs <;> rfl
  · unfold specSpawnPeriod
    rw [if_neg (by omega), if_neg (by omega)]

/-- Closed instance of C4 at the lone-player server state. -/
theorem C4_adaptive_spawn_timer_witness :
    (onConnection loneServerState).1.gs.connectedPlayers =
      loneServerState.gs.connectedPlayers + 1 ∧
    (onConnection loneServerState).1.foodSpawnInterval =
      specSpawnPeriod (loneServerState.gs.connectedPlayers + 1) ∧
    specSpawnPeriod 3 = some 500 :=
  ⟨(C4_adaptive_spawn_timer loneServerState "s").1,
   (C4_adaptive_spawn_timer loneServerState "s").2.1,
   (C4_adaptive_spawn_timer loneServerState "s").2.2.2.2.2.2 3 (by norm_num)⟩

/-- C5 as stated fails: with a single connected player, a spawn-timer tick
both creates a food server-side and broadcasts foodSpawned to the lone
client. -/
theorem C5_lone_broadcast_counterexample :
    loneServerState.gs.connectedPlayers ≤ 1 ∧
    (spawnTick loneServerState "f1" 1 2 "#AAFFAA").2 =
      [ServerEvent.foodSpawned
        { id := "f1", x := 1, y := 2, radius := 5, value := 1, color := "#AAFFAA" }] := by
  refine ⟨by decide, ?_⟩
  rfl

/-- C5 amended: with at most one connected player the server suppresses
playerJoined, playerMoved and playerRespawned while still applying the
state updates (the join still writes its snapshot, the update and respawn
still overwrite the stored snapshot), but foodSpawned is emitted whenever
at least one player is connected, foodRemoved and playerDied are emitted
for any successful removal or kill regardless of the count, and
playerLeft is emitted exactly when the socket was registered and players
remain after the decrement. -/
theorem C5_lone_player_suppression (gs : GameState) (st : ServerState)
    (sid fid pid : String) (jd : JoinData) (ud : UpdateData) (rd : RespawnData)
    (fx fy : ℚ) (fc : String) (hgs : gs.connectedPlayers ≤ 1) :
    (playerJoin gs sid jd).2 = [] ∧
    (playerUpdate gs sid ud).2 = [] ∧
    (playerRespawn gs sid rd).2 = [] ∧
    ((foodEaten gs fid).2 =
      if (gs.foods.findIdx? (fun food => food.id == fid)).isSome
      then [ServerEvent.foodRemoved fid] else []) ∧
    ((playerEaten gs pid).2 =
      if (lookupPlayer gs.players pid).isSome
      then [ServerEvent.playerDied pid] else []) ∧
    (st.gs.connectedPlayers = 1 → st.gs.foods.length < st.gs.maxFoodItems →
      (spawnTick st fid fx fy fc).2 =
        [ServerEvent.foodSpawned
          { id := fid, x := fx, y := fy, radius := 5, value := 1, color := fc }] ∧
      (spawnTick st fid fx fy fc).1.gs.foods.length = st.gs.foods.length + 1) ∧
    (playerJoin gs sid jd).1.players =
      setPlayer gs.players sid
        { id := sid, name := jd.name, x := jd.x, y := jd.y, radius := jd.radius,
          color := jd.color, eyeColor := jd.eyeColor, pupilColor := jd.pupilColor,
          angle := jd.angle, score := 0, sizeLevel := 1, isAlive := true } ∧
    (∀ pl, lookupPlayer gs.players sid = some pl →
      (playerUpdate gs sid ud).1.players =
        setPlayer gs.players sid
          { pl with x := ud.x, y := ud.y, radius := ud.radius, angle := ud.angle,
                    score := ud.score, sizeLevel := ud.sizeLevel,
                    isAlive := ud.isAlive }) ∧
    (∀ pl, lookupPlayer gs.players sid = some pl →
      (playerRespawn gs sid rd).1.players =
        setPlayer gs.players sid
          { pl with x := rd.x, y := rd.y, radius := rd.radius,
                    score := rd.score, sizeLevel := rd.sizeLevel,
                    isAlive := true }) ∧
    ((onDisconnect st sid).2 =
      if (lookupPlayer st.gs.players sid).isSome ∧
          0 < max 0 (st.gs.connectedPlayers - 1)
      then [ServerEvent.playerLeft sid] else []) := by
  have hng : ¬ (1 < gs.connectedPlayers) := not_lt.mpr hgs
  refine ⟨?_, ?_, ?_, ?_, ?_, fun hone hcap => ?_, ?_, ?_, ?_, ?_⟩
  · rcases hw : jd.worldWidth with _ | w <;> rcases hh : jd.worldHeight with _ | h <;>
      simp [playerJoin, hw, hh, hng]
  · rcases hl : lookupPlayer gs.players sid with _ | pl <;>
      simp [playerUpdate, hl, hng]
  · rcases hl : lookupPlayer gs.players sid with _ | pl <;>
      simp [playerRespawn, hl, hng]
  · rcases hf : gs.foods.findIdx? (fun food => food.id == fid) with _ | i <;>
      simp [foodEaten, hf]
  · rcases hl : lookupPlayer gs.players pid with _ | pl <;>
      simp [playerEaten, hl]
  · have hnotfull : ¬ (st.gs.foods.length ≥ st.gs.maxFoodItems) := not_le.mpr hcap
    constructor <;> simp [spawnTick, generateFood, hnotfull, hone]
  · unfold playerJoin
    rcases jd.worldWidth with _ | w <;> rcases jd.worldHeight with _ | h <;>
      dsimp only <;> split_ifs <;> rfl
  · intro pl hpl
    simp only [playerUpdate, hpl]
    split_ifs <;> rfl
  · intro pl hpl
    simp only [playerRespawn, hpl]
    split_ifs <;> rfl
  · rcases hl : lookupPlayer st.gs.players sid with _ | pl <;>
      simp [onDisconnect, startFoodSpawning_gs, hl]
    split_ifs <;> simp

/-- Closed instance of the amended C5: a join processed while alone
produces no playerJoined broadcast. -/
theorem C5_lone_player_suppression_witness :
    (playerJoin loneServerState.gs "s1" demoJoinData).2 = [] :=
  (C5_lone_player_suppression loneServerState.gs loneServerState "s1" "f1" "p1"
    demoJoinData demoUpdateData demoRespawnData 1 2 "#AAFFAA" (by decide)).1

/-- A property write leaves the key list unchanged when the key already
exists and appends the key otherwise. -/
theorem setPlayer_keys (ps : List (String × PlayerSnapshot)) (sid : String)
    (snap : PlayerSnapshot) :
    (setPlayer ps sid snap).map Prod.fst =
      if ps.any (fun e => e.1 == sid) then ps.map Prod.fst
      else ps.map Prod.fst ++ [sid] := by
  unfold setPlayer
  split_ifs with h
  · rw [List.map_map]
    apply List.map_congr_left
    intro e _
    by_cases he : e.1 = sid <;> simp [he]
  · simp

/-- A successful registry lookup means some entry carries the key. -/
theorem any_of_lookupPlayer_eq_some {ps : List (String × PlayerSnapshot)}
    {sid : String} {pl : PlayerSnapshot} (h : lookupPlayer ps sid = some pl) :
    ps.any (fun e => e.1 == sid) = true := by
  unfold lookupPlayer at h
  rcases hf : ps.find? (fun e => e.1 == sid) with _ | e
  · rw [hf] at h; simp at h
  · have hmem := List.mem_of_find?_eq_some hf
    have hpe := List.find?_some hf
    exact List.any_eq_true.mpr ⟨e, hmem, hpe⟩

/-- A failed registry lookup means no entry carries the key. -/
theorem lookupPlayer_eq_none_iff {ps : List (String × PlayerSnapshot)} {sid : String} :
    lookupPlayer ps sid = none ↔ ∀ e ∈ ps, ¬ (e.1 == sid) = true := by
  unfold lookupPlayer
  rw [Option.map_eq_none']
  exact List.find?_eq_none

/-- Deleting a key that is not present leaves the registry unchanged. -/
theorem removePlayer_eq_self_of_lookup_none {ps : List (String × PlayerSnapshot)}
    {sid : String} (h : lookupPlayer ps sid = none) : removePlayer ps sid = ps := by
  unfold removePlayer
  rw [List.filter_eq_self]
  intro e he
  simpa using lookupPlayer_eq_none_iff.mp h e he

/-- Keys surviving a delete were present before and differ from the
deleted key. -/
theorem mem_keys_removePlayer {ps : List (String × PlayerSnapshot)}
    {sid k : String} (h : k ∈ (removePlayer ps sid).map Prod.fst) :
    k ∈ ps.map Prod.fst ∧ k ≠ sid := by
  obtain ⟨e, he, hfst⟩ := List.mem_map.mp h
  have hmem := List.mem_of_mem_filter he
  have hp := List.of_mem_filter he
  subst hfst
  refine ⟨List.mem_map_of_mem _ hmem, ?_⟩
  simpa using hp

/-- The deleted registry keys are a sublist of the original keys. -/
theorem keys_removePlayer_sublist (ps : List (String × PlayerSnapshot)) (sid : String) :
    ((removePlayer ps sid).map Prod.fst).Sublist (ps.map Prod.fst) :=
  (List.filter_sublist ps).map Prod.fst

/-- A key absent from every entry is absent from the key list. -/
theorem not_mem_keys_of_any_eq_false {ps : List (String × PlayerSnapshot)}
    {sid : String} (h : ps.any (fun e => e.1 == sid) = false) :
    sid ∉ ps.map Prod.fst := by
  intro hmem
  obtain ⟨e, he, hfst⟩ := List.mem_map.mp hmem
  have hall := List.any_eq_false.mp h e he
  rw [hfst] at hall
  simp at hall

/-- generateFood only ever touches the food list. -/
theorem generateFood_fields (gs : GameState) (fid : String) (fx fy : ℚ) (fc : String) :
    (generateFood gs fid fx fy fc).1.players = gs.players ∧
    (generateFood gs fid fx fy fc).1.connectedPlayers = gs.connectedPlayers ∧
    (generateFood gs fid fx fy fc).1.maxFoodItems = gs.maxFoodItems := by
  unfold generateFood
  split_ifs <;> exact ⟨rfl, rfl, rfl⟩

/-- generateFood is a strict no-op at the cap and otherwise appends
exactly one food. -/
theorem generateFood_length (gs : GameState) (fid : String) (fx fy : ℚ) (fc : String) :
    (gs.maxFoodItems ≤ gs.foods.length → generateFood gs fid fx fy fc = (gs, none)) ∧
    (gs.foods.length < gs.maxFoodItems →
      (generateFood gs fid fx fy fc).1.foods.length = gs.foods.length + 1) := by
  constructor
  · intro h
    unfold generateFood
    rw [if_pos (by omega)]
  · intro h
    unfold generateFood
    rw [if_neg (by omega)]
    simp

/-- Erasing an index never lengthens a list. -/
theorem length_eraseIdx_le {α : Type} (l : List α) (i : ℕ) :
    (l.eraseIdx i).length ≤ l.length := by
  rw [List.length_eraseIdx]
  split_ifs <;> omega

/-- The seeding loop only grows the food list: every other field is kept,
and when the draws fit under the cap it adds exactly one food per draw. -/
theorem seedFoods_fields (draws : List (String × ℚ × ℚ × String)) : ∀ gs : GameState,
    (seedFoods gs draws).players = gs.players ∧
    (seedFoods gs draws).connectedPlayers = gs.connectedPlayers ∧
    (seedFoods gs draws).maxFoodItems = gs.maxFoodItems ∧
    (seedFoods gs draws).foods.length ≤ gs.foods.length + draws.length ∧
    (gs.foods.length + draws.length ≤ gs.maxFoodItems →
      (seedFoods gs draws).foods.length = gs.foods.length + draws.length) := by
  induction draws with
  | nil => intro gs; simp [seedFoods]
  | cons d ds ih =>
      intro gs
      have hstep : seedFoods gs (d :: ds) =
          seedFoods (generateFood gs d.1 d.2.1 d.2.2.1 d.2.2.2).1 ds := by
        unfold seedFoods
        rw [List.foldl_cons]
      obtain ⟨hp, hc, hm⟩ := generateFood_fields gs d.1 d.2.1 d.2.2.1 d.2.2.2
      obtain ⟨ihp, ihc, ihm, ihlen, ihfit⟩ := ih (generateFood gs d.1 d.2.1 d.2.2.1 d.2.2.2).1
      have hglen : (generateFood gs d.1 d.2.1 d.2.2.1 d.2.2.2).1.foods.length ≤
          gs.foods.length + 1 := by
        by_cases hfull : gs.foods.length < gs.maxFoodItems
        · rw [(generateFood_length gs d.1 d.2.1 d.2.2.1 d.2.2.2).2 hfull]
        · rw [(generateFood_length gs d.1 d.2.1 d.2.2.1 d.2.2.2).1 (by omega)]
          exact Nat.le_succ _
      refine ⟨by rw [hstep, ihp, hp], by rw [hstep, ihc, hc], by rw [hstep, ihm, hm],
        ?_, ?_⟩
      · rw [hstep]
        simp only [List.length_cons]
        omega
      · intro hfit
        simp only [List.length_cons] at hfit
        have hone : (generateFood gs d.1 d.2.1 d.2.2.1 d.2.2.2).1.foods.length =
            gs.foods.length + 1 :=
          (generateFood_length gs d.1 d.2.1 d.2.2.1 d.2.2.2).2 (by omega)
        rw [hstep, ihfit (by rw [hone, hm]; omega), hone]
        simp only [List.length_cons]
        omega

/-- The connection handler only bumps the counter and rebuilds the timer. -/
theorem onConnection_fields (st : ServerState) :
    (onConnection st).1.gs.players = st.gs.players ∧
    (onConnection st).1.gs.connectedPlayers = st.gs.connectedPlayers + 1 ∧
    (onConnection st).1.gs.foods = st.gs.foods ∧
    (onConnection st).1.gs.maxFoodItems = st.gs.maxFoodItems := by
  refine ⟨?_, ?_, ?_, ?_⟩ <;> simp [onConnection, startFoodSpawning_gs]

/-- The disconnect handler clamps the counter down, deletes the key, and
keeps the food state. -/
theorem onDisconnect_fields (st : ServerState) (sid : String) :
    (onDisconnect st sid).1.gs.players = removePlayer st.gs.players sid ∧
    (onDisconnect st sid).1.gs.connectedPlayers = max 0 (st.gs.connectedPlayers - 1) ∧
    (onDisconnect st sid).1.gs.foods = st.gs.foods ∧
    (onDisconnect st sid).1.gs.maxFoodItems = st.gs.maxFoodItems := by
  refine ⟨?_, ?_, ?_, ?_⟩
  all_goals rcases hl : lookupPlayer st.gs.players sid with _ | pl
  all_goals simp [onDisconnect, startFoodSpawning_gs, hl]
  all_goals try rw [removePlayer_eq_self_of_lookup_none hl]
  all_goals try (split_ifs <;> rfl)

/-- The join handler writes some snapshot under the socket id. -/
theorem playerJoin_players (gs : GameState) (sid : String) (pd : JoinData) :
    ∃ snap, (playerJoin gs sid pd).1.players = setPlayer gs.players sid snap := by
  refine ⟨{ id := sid, name := pd.name, x := pd.x, y := pd.y, radius := pd.radius,
            color := pd.color, eyeColor := pd.eyeColor, pupilColor := pd.pupilColor,
            angle := pd.angle, score := 0, sizeLevel := 1, isAlive := true }, ?_⟩
  unfold playerJoin
  rcases pd.worldWidth with _ | w <;> rcases pd.worldHeight with _ | h <;>
    dsimp only <;> split_ifs <;> rfl

/-- The join handler registers the key and keeps counter and food state. -/
theorem playerJoin_fields (gs : GameState) (sid : String) (pd : JoinData) :
    (playerJoin gs sid pd).1.players.map Prod.fst =
      (if gs.players.any (fun e => e.1 == sid) then gs.players.map Prod.fst
       else gs.players.map Prod.fst ++ [sid]) ∧
    (playerJoin gs sid pd).1.connectedPlayers = gs.connectedPlayers ∧
    (playerJoin gs sid pd).1.foods = gs.foods ∧
    (playerJoin gs sid pd).1.maxFoodItems = gs.maxFoodItems := by
  obtain ⟨snap, hsnap⟩ := playerJoin_players gs sid pd
  have hrest : (playerJoin gs sid pd).1.connectedPlayers = gs.connectedPlayers ∧
      (playerJoin gs sid pd).1.foods = gs.foods ∧
      (playerJoin gs sid pd).1.maxFoodItems = gs.maxFoodItems := by
    unfold playerJoin
    rcases pd.worldWidth with _ | w <;> rcases pd.worldHeight with _ | h <;>
      refine ⟨?_, ?_, ?_⟩ <;> dsimp only <;> split_ifs <;> rfl
  exact ⟨by rw [hsnap, setPlayer_keys], hrest.1, hrest.2.1, hrest.2.2⟩

/-- The update handler keeps the key list, the counter and the food
state. -/
theorem playerUpdate_fields (gs : GameState) (sid : String) (pd : UpdateData) :
    (playerUpdate gs sid pd).1.players.map Prod.fst = gs.players.map Prod.fst ∧
    (playerUpdate gs sid pd).1.connectedPlayers = gs.connectedPlayers ∧
    (playerUpdate gs sid pd).1.foods = gs.foods ∧
    (playerUpdate gs sid pd).1.maxFoodItems = gs.maxFoodItems := by
  rcases hl : lookupPlayer gs.players sid with _ | pl
  · refine ⟨?_, ?_, ?_, ?_⟩ <;> simp [playerUpdate, hl]
  · have hany := any_of_lookupPlayer_eq_some hl
    have hplayers : ∃ snap,
        (playerUpdate gs sid pd).1.players = setPlayer gs.players sid snap := by
      simp only [playerUpdate, hl]
      split_ifs <;> exact ⟨_, rfl⟩
    obtain ⟨snap, hsnap⟩ := hplayers
    have hrest : (playerUpdate gs sid pd).1.connectedPlayers = gs.connectedPlayers ∧
        (playerUpdate gs sid pd).1.foods = gs.foods ∧
        (playerUpdate gs sid pd).1.maxFoodItems = gs.maxFoodItems := by
      simp only [playerUpdate, hl]
      split_ifs <;> exact ⟨rfl, rfl, rfl⟩
    exact ⟨by rw [hsnap, setPlayer_keys, if_pos hany], hrest.1, hrest.2.1, hrest.2.2⟩

/-- The kill handler keeps the key list, the counter and the food state. -/
theorem playerEaten_fields (gs : GameState) (pid : String) :
    (playerEaten gs pid).1.players.map Prod.fst = gs.players.map Prod.fst ∧
    (playerEaten gs pid).1.connectedPlayers = gs.connectedPlayers ∧
    (playerEaten gs pid).1.foods = gs.foods ∧
    (playerEaten gs pid).1.maxFoodItems = gs.maxFoodItems := by
  rcases hl : lookupPlayer gs.players pid with _ | pl
  · refine ⟨?_, ?_, ?_, ?_⟩ <;> simp [playerEaten, hl]
  · have hany := any_of_lookupPlayer_eq_some hl
    have hsnap : (playerEaten gs pid).1.players =
        setPlayer gs.players pid { pl with isAlive := false } := by
      simp only [playerEaten, hl]
    refine ⟨by rw [hsnap, setPlayer_keys, if_pos hany], ?_, ?_, ?_⟩ <;>
      simp only [playerEaten, hl]

/-- The respawn handler keeps the key list, the counter and the food
state. -/
theorem playerRespawn_fields (gs : GameState) (sid : String) (pd : RespawnData) :
    (playerRespawn gs sid pd).1.players.map Prod.fst = gs.players.map Prod.fst ∧
    (playerRespawn gs sid pd).1.connectedPlayers = gs.connectedPlayers ∧
    (playerRespawn gs sid pd).1.foods = gs.foods ∧
    (playerRespawn gs sid pd).1.maxFoodItems = gs.maxFoodItems := by
  rcases hl : lookupPlayer gs.players sid with _ | pl
  · refine ⟨?_, ?_, ?_, ?_⟩ <;> simp [playerRespawn, hl]
  · have hany := any_of_lookupPlayer_eq_some hl
    have hplayers : ∃ snap,
        (playerRespawn gs sid pd).1.players = setPlayer gs.players sid snap := by
      simp only [playerRespawn, hl]
      split_ifs <;> exact ⟨_, rfl⟩
    obtain ⟨snap, hsnap⟩ := hplayers
    have hrest : (playerRespawn gs sid pd).1.connectedPlayers = gs.connectedPlayers ∧
        (playerRespawn gs sid pd).1.foods = gs.foods ∧
        (playerRespawn gs sid pd).1.maxFoodItems = gs.maxFoodItems := by
      simp only [playerRespawn, hl]
      split_ifs <;> exact ⟨rfl, rfl, rfl⟩
    exact ⟨by rw [hsnap, setPlayer_keys, if_pos hany], hrest.1, hrest.2.1, hrest.2.2⟩

/-- The food-consumption handler keeps everything but the food list, which
can only shorten. -/
theorem foodEaten_fields (gs : GameState) (fid : String) :
    (foodEaten gs fid).1.players = gs.players ∧
    (foodEaten gs fid).1.connectedPlayers = gs.connectedPlayers ∧
    (foodEaten gs fid).1.maxFoodItems = gs.maxFoodItems ∧
    (foodEaten gs fid).1.foods.length ≤ gs.foods.length := by
  rcases hf : gs.foods.findIdx? (fun food => food.id == fid) with _ | i <;>
    refine ⟨?_, ?_, ?_, ?_⟩ <;> simp [foodEaten, hf, length_eraseIdx_le]

/-- A spawn-timer tick keeps everything but the food list, and respects
the cap. -/
theorem spawnTick_fields (st : ServerState) (fid : String) (fx fy : ℚ) (fc : String) :
    (spawnTick st fid fx fy fc).1.gs.players = st.gs.players ∧
    (spawnTick st fid fx fy fc).1.gs.connectedPlayers = st.gs.connectedPlayers ∧
    (spawnTick st fid fx fy fc).1.gs.maxFoodItems = st.gs.maxFoodItems ∧
    (st.gs.foods.length ≤ st.gs.maxFoodItems →
      (spawnTick st fid fx fy fc).1.gs.foods.length ≤ st.gs.maxFoodItems) := by
  have hgs : (spawnTick st fid fx fy fc).1.gs = (generateFood st.gs fid fx fy fc).1 := by
    unfold spawnTick
    rcases h2 : (generateFood st.gs fid fx fy fc).2 with _ | f <;> simp [h2]
    split_ifs <;> rfl
  obtain ⟨hp, hc, hm⟩ := generateFood_fields st.gs fid fx fy fc
  refine ⟨by rw [hgs, hp], by rw [hgs, hc], by rw [hgs, hm], fun hbound => ?_⟩
  by_cases hfull : st.gs.foods.length < st.gs.maxFoodItems
  · rw [hgs, (generateFood_length st.gs fid fx fy fc).2 hfull]
    omega
  · rw [hgs, (generateFood_length st.gs fid fx fy fc).1 (by omega)]
    exact hbound

/-- One valid step preserves the counter/registry invariant. -/
theorem counterInv_step (ts : TraceState) (m : ServerMsg)
    (hI : CounterInv ts) (hm : validMsg ts m = true) :
    CounterInv (traceStep ts m) := by
  obtain ⟨hc, hnd, hsub, hpnd⟩ := hI
  cases m with
  | connect sid =>
      have hnotmem : sid ∉ ts.sockets := by simpa [validMsg] using hm
      obtain ⟨hp, hcc, _, _⟩ := onConnection_fields ts.st
      refine ⟨?_, List.nodup_cons.mpr ⟨hnotmem, hnd⟩, ?_, ?_⟩
      · show (onConnection ts.st).1.gs.connectedPlayers = ((sid :: ts.sockets).length : ℤ)
        rw [hcc, hc]
        simp
      · intro k hk
        have hk2 : k ∈ playerIds ts.st.gs := by
          simpa [playerIds, traceStep, hp] using hk
        exact List.mem_cons_of_mem _ (hsub k hk2)
      · simpa [playerIds, traceStep, hp] using hpnd
  | join sid pd =>
      have hmem : sid ∈ ts.sockets := by simpa [validMsg] using hm
      obtain ⟨hk, hcc, _, _⟩ := playerJoin_fields ts.st.gs sid pd
      refine ⟨?_, hnd, ?_, ?_⟩
      · show (playerJoin ts.st.gs sid pd).1.connectedPlayers = (ts.sockets.length : ℤ)
        rw [hcc, hc]
      · intro k hkm
        have hkk : k ∈ (playerJoin ts.st.gs sid pd).1.players.map Prod.fst := by
          simpa [playerIds, traceStep] using hkm
        rw [hk] at hkk
        by_cases hany : ts.st.gs.players.any (fun e => e.1 == sid) = true
        · rw [if_pos hany] at hkk
          exact hsub k hkk
        · rw [if_neg hany] at hkk
          rcases List.mem_append.mp hkk with hin | hin
          · exact hsub k hin
          · have hksid : k = sid := by simpa using hin
            rw [hksid]
            exact hmem
      · show ((playerJoin ts.st.gs sid pd).1.players.map Prod.fst).Nodup
        rw [hk]
        by_cases hany : ts.st.gs.players.any (fun e => e.1 == sid) = true
        · rw [if_pos hany]
          exact hpnd
        · rw [if_neg hany]
          have hany2 : ts.st.gs.players.any (fun e => e.1 == sid) = false :=
            Bool.eq_false_iff.mpr hany
          rw [List.nodup_append]
          refine ⟨hpnd, List.nodup_singleton sid, fun a ha hb => ?_⟩
          have hasid : a = sid := by simpa using hb
          rw [hasid] at ha
          exact not_mem_keys_of_any_eq_false hany2 ha
  | move sid pd =>
      obtain ⟨hk, hcc, _, _⟩ := playerUpdate_fields ts.st.gs sid pd
      refine ⟨?_, hnd, ?_, ?_⟩
      · show (playerUpdate ts.st.gs sid pd).1.connectedPlayers = (ts.sockets.length : ℤ)
        rw [hcc, hc]
      · intro k hkm
        refine hsub k ?_
        simpa [playerIds, traceStep, hk] using hkm
      · simpa [playerIds, traceStep, hk] using hpnd
  | eatFood fid =>
      obtain ⟨hp, hcc, _, _⟩ := foodEaten_fields ts.st.gs fid
      refine ⟨?_, hnd, ?_, ?_⟩
      · show (foodEaten ts.st.gs fid).1.connectedPlayers = (ts.sockets.length : ℤ)
        rw [hcc, hc]
      · intro k hkm
        refine hsub k ?_
        simpa [playerIds, traceStep, hp] using hkm
      · simpa [playerIds, traceStep, hp] using hpnd
  | eatPlayer pid =>
      obtain ⟨hk, hcc, _, _⟩ := playerEaten_fields ts.st.gs pid
      refine ⟨?_, hnd, ?_, ?_⟩
      · show (playerEaten ts.st.gs pid).1.connectedPlayers = (ts.sockets.length : ℤ)
        rw [hcc, hc]
      · intro k hkm
        refine hsub k ?_
        simpa [playerIds, traceStep, hk] using hkm
      · simpa [playerIds, traceStep, hk] using hpnd
  | respawn sid pd =>
      obtain ⟨hk, hcc, _, _⟩ := playerRespawn_fields ts.st.gs sid pd
      refine ⟨?_, hnd, ?_, ?_⟩
      · show (playerRespawn ts.st.gs sid pd).1.connectedPlayers = (ts.sockets.length : ℤ)
        rw [hcc, hc]
      · intro k hkm
        refine hsub k ?_
        simpa [playerIds, traceStep, hk] using hkm
      · simpa [playerIds, traceStep, hk] using hpnd
  | close sid =>
      have hmem : sid ∈ ts.sockets := by simpa [validMsg] using hm
      obtain ⟨hp, hcc, _, _⟩ := onDisconnect_fields ts.st sid
      have hpos : 0 < ts.sockets.length := List.length_pos_of_mem hmem
      refine ⟨?_, hnd.erase sid, ?_, ?_⟩
      · show (onDisconnect ts.st sid).1.gs.connectedPlayers =
          ((ts.sockets.erase sid).length : ℤ)
        rw [hcc, hc, List.length_erase_of_mem hmem]
        rw [max_eq_right (by omega : (0 : ℤ) ≤ (ts.sockets.length : ℤ) - 1)]
        omega
      · intro k hk
        have hk2 : k ∈ (removePlayer ts.st.gs.players sid).map Prod.fst := by
          simpa [playerIds, traceStep, hp] using hk
        obtain ⟨hmem2, hne⟩ := mem_keys_removePlayer hk2
        exact (List.mem_erase_of_ne hne).mpr (hsub k hmem2)
      · have hnd2 : ((removePlayer ts.st.gs.players sid).map Prod.fst).Nodup :=
          hpnd.sublist (keys_removePlayer_sublist _ _)
        simpa [playerIds, traceStep, hp] using hnd2
  | spawn fid fx fy fc =>
      obtain ⟨hp, hcc, _, _⟩ := spawnTick_fields ts.st fid fx fy fc
      refine ⟨?_, hnd, ?_, ?_⟩
      · show (spawnTick ts.st fid fx fy fc).1.gs.connectedPlayers =
          (ts.sockets.length : ℤ)
        rw [hcc, hc]
      · intro k hkm
        refine hsub k ?_
        simpa [playerIds, traceStep, hp] using hkm
      · simpa [playerIds, traceStep, hp] using hpnd

/-- The counter/registry invariant carries over every valid trace. -/
theorem counterInv_runTrace : ∀ (ms : List ServerMsg) (ts : TraceState),
    CounterInv ts → validTrace ts ms = true → CounterInv (runTrace ts ms) := by
  intro ms
  induction ms with
  | nil => intro ts h _; simpa [runTrace] using h
  | cons m ms ih =>
      intro ts h hv
      rw [validTrace, Bool.and_eq_true] at hv
      rw [runTrace]
      exact ih _ (counterInv_step ts m h hv.1) hv.2

/-- The freshly booted server satisfies the counter/registry invariant. -/
theorem counterInv_boot (draws : List (String × ℚ × ℚ × String)) :
    CounterInv (bootState draws) := by
  obtain ⟨hp, hc, _, _, _⟩ := seedFoods_fields draws initialGameState
  have hgs : (bootState draws).st.gs = seedFoods initialGameState draws := by
    simp only [bootState, startFoodSpawning_gs]
  refine ⟨?_, List.nodup_nil, ?_, ?_⟩
  · rw [hgs, hc]
    simp [initialGameState, bootState]
  · intro k hk
    rw [playerIds, hgs, hp] at hk
    simp [initialGameState] at hk
  · rw [playerIds, hgs, hp]
    simp [initialGameState]

/-- One step preserves the food-cap invariant (no validity needed). -/
theorem foodInv_step (ts : TraceState) (m : ServerMsg) (h : FoodInv ts) :
    FoodInv (traceStep ts m) := by
  obtain ⟨hlen, hmax⟩ := h
  cases m with
  | connect sid =>
      obtain ⟨_, _, hf, hm⟩ := onConnection_fields ts.st
      exact ⟨by simp only [traceStep, hf, hm]; exact hlen,
             by simp only [traceStep, hm]; exact hmax⟩
  | join sid pd =>
      obtain ⟨_, _, hf, hm⟩ := playerJoin_fields ts.st.gs sid pd
      exact ⟨by simp only [traceStep, hf, hm]; exact hlen,
             by simp only [traceStep, hm]; exact hmax⟩
  | move sid pd =>
      obtain ⟨_, _, hf, hm⟩ := playerUpdate_fields ts.st.gs sid pd
      exact ⟨by simp only [traceStep, hf, hm]; exact hlen,
             by simp only [traceStep, hm]; exact hmax⟩
  | eatFood fid =>
      obtain ⟨_, _, hm, hf⟩ := foodEaten_fields ts.st.gs fid
      exact ⟨by simp only [traceStep, hm]; exact le_trans hf hlen,
             by simp only [traceStep, hm]; exact hmax⟩
  | eatPlayer pid =>
      obtain ⟨_, _, hf, hm⟩ := playerEaten_fields ts.st.gs pid
      exact ⟨by simp only [traceStep, hf, hm]; exact hlen,
             by simp only [traceStep, hm]; exact hmax⟩
  | respawn sid pd =>
      obtain ⟨_, _, hf, hm⟩ := playerRespawn_fields ts.st.gs sid pd
      exact ⟨by simp only [traceStep, hf, hm]; exact hlen,
             by simp only [traceStep, hm]; exact hmax⟩
  | close sid =>
      obtain ⟨_, _, hf, hm⟩ := onDisconnect_fields ts.st sid
      exact ⟨by simp only [traceStep, hf, hm]; exact hlen,
             by simp only [traceStep, hm]; exact hmax⟩
  | spawn fid fx fy fc =>
      obtain ⟨_, _, hm, hf⟩ := spawnTick_fields ts.st fid fx fy fc
      exact ⟨by simp only [traceStep, hm]; exact hf hlen,
             by simp only [traceStep, hm]; exact hmax⟩

/-- The food-cap invariant carries over every trace. -/
theorem foodInv_runTrace : ∀ (ms : List ServerMsg) (ts : TraceState),
    FoodInv ts → FoodInv (runTrace ts ms) := by
  intro ms
  induction ms with
  | nil => intro ts h; simpa [runTrace] using h
  | cons m ms ih =>
      intro ts h
      rw [runTrace]
      exact ih _ (foodInv_step ts m h)

/-- C9: along every valid trace the connectedPlayers counter equals the
number of connected sockets — it rises by exactly one per connection,
falls by exactly one per disconnection, and never goes negative — and at
every quiescent point, where each connected socket has completed its join,
it equals the size of the player registry. -/
theorem C9_connected_players_counter (draws : List (String × ℚ × ℚ × String))
    (ms : List ServerMsg) (hv : validTrace (bootState draws) ms = true) :
    0 ≤ (runTrace (bootState draws) ms).st.gs.connectedPlayers ∧
    (runTrace (bootState draws) ms).st.gs.connectedPlayers =
      ((runTrace (bootState draws) ms).sockets.length : ℤ) ∧
    ((∀ sid ∈ (runTrace (bootState draws) ms).sockets,
        sid ∈ playerIds (runTrace (bootState draws) ms).st.gs) →
      (runTrace (bootState draws) ms).st.gs.connectedPlayers =
        ((playerIds (runTrace (bootState draws) ms).st.gs).length : ℤ)) := by
  obtain ⟨hc, hnd, hsub, hpnd⟩ := counterInv_runTrace ms _ (counterInv_boot draws) hv
  refine ⟨by rw [hc]; positivity, hc, fun hq => ?_⟩
  have hfin : (playerIds (runTrace (bootState draws) ms).st.gs).toFinset =
      (runTrace (bootState draws) ms).sockets.toFinset := by
    ext a
    simp only [List.mem_toFinset]
    exact ⟨fun h => hsub a h, fun h => hq a h⟩
  have hlen : (playerIds (runTrace (bootState draws) ms).st.gs).length =
      (runTrace (bootState draws) ms).sockets.length := by
    rw [← List.toFinset_card_of_nodup hpnd, ← List.toFinset_card_of_nodup hnd, hfin]
  rw [hc, hlen]

/-- Closed instance of C9 on the trace connect-then-join from an empty
boot, a quiescent point with one socket and one registered player. -/
theorem C9_connected_players_counter_witness :
    validTrace (bootState [])
      [ServerMsg.connect "a", ServerMsg.join "a" demoJoinData] = true ∧
    (0 ≤ (runTrace (bootState [])
        [ServerMsg.connect "a", ServerMsg.join "a" demoJoinData]).st.gs.connectedPlayers ∧
     (runTrace (bootState [])
        [ServerMsg.connect "a", ServerMsg.join "a" demoJoinData]).st.gs.connectedPlayers =
       (((runTrace (bootState [])
          [ServerMsg.connect "a", ServerMsg.join "a" demoJoinData]).sockets.length : ℕ) : ℤ) ∧
     (runTrace (bootState [])
        [ServerMsg.connect "a", ServerMsg.join "a" demoJoinData]).st.gs.connectedPlayers =
       (((playerIds (runTrace (bootState [])
          [ServerMsg.connect "a", ServerMsg.join "a" demoJoinData]).st.gs).length : ℕ) : ℤ)) := by
  have h := C9_connected_players_counter []
    [ServerMsg.connect "a", ServerMsg.join "a" demoJoinData] (by decide)
  exact ⟨by decide, h.1, h.2.1, h.2.2 (by decide)⟩

/-- C10: the server boots with exactly 50 seeded foods, the food count of
every state reachable from boot stays at or below maxFoodItems = 100, and
generateFood is a strict no-op whenever the cap is already reached. -/
theorem C10_food_cap (draws : List (String × ℚ × ℚ × String))
    (ms : List ServerMsg) (h50 : draws.length = 50) :
    (bootState draws).st.gs.foods.length = 50 ∧
    (runTrace (bootState draws) ms).st.gs.foods.length ≤ 100 ∧
    (∀ (gs : GameState) (fid : String) (fx fy : ℚ) (fc : String),
      gs.maxFoodItems ≤ gs.foods.length → generateFood gs fid fx fy fc = (gs, none)) := by
  obtain ⟨hp, hc, hm, hle, hfit⟩ := seedFoods_fields draws initialGameState
  have hboot : (bootState draws).st.gs.foods.length = 50 := by
    show (startFoodSpawning _).gs.foods.length = 50
    rw [startFoodSpawning_gs]
    have h1 := hfit (by simp [initialGameState, h50])
    simpa [initialGameState, h50] using h1
  have hbmax : (bootState draws).st.gs.maxFoodItems = 100 := by
    show (startFoodSpawning _).gs.maxFoodItems = 100
    rw [startFoodSpawning_gs]
    simpa [initialGameState] using hm
  have hinv : FoodInv (bootState draws) := ⟨by rw [hboot, hbmax]; omega, hbmax⟩
  obtain ⟨hrl, hrm⟩ := foodInv_runTrace ms _ hinv
  exact ⟨hboot, hrm ▸ hrl, fun gs fid fx fy fc hcap =>
    (generateFood_length gs fid fx fy fc).1 hcap⟩

/-- Closed instance of C10 at the demo boot draws and the empty trace. -/
theorem C10_food_cap_witness :
    (bootState demoDraws).st.gs.foods.length = 50 ∧
    (runTrace (bootState demoDraws) []).st.gs.foods.length ≤ 100 :=
  ⟨(C10_food_cap demoDraws [] (by simp [demoDraws])).1,
   (C10_food_cap demoDraws [] (by simp [demoDraws])).2.1⟩

end FishEatFish
